import Mathlib

/-!
Shallow embedding of `src/main.py` (rocky-shore invertebrate survey pipeline).

The script manipulates one pandas DataFrame whose rows are observation
records.  We embed a DataFrame as a `List Row`.  Missing cells (pandas `NaN`)
are embedded as `none`; `Individual Count` holds whole-number counts, so it is
`Option ℤ`; the `Size of the organism (cm)` column mixes numbers with the
sentinel string ">0.1", so its cells are a sum type `CellVal`.

`scipy.stats.mannwhitneyu` is deterministic in its two sample lists, so a call
is modelled by the pair of samples handed to it (`Except` captures the
`TypeError`/`ValueError` raised on a missing or empty sample); every property
claimed about a p-value is settled at the level of that pair.
-/

namespace Invertebrates

/-- A cell of the "Size of the organism (cm)" column: the spreadsheet mixes
numeric sizes with the sentinel string ">0.1" (and possibly blanks). -/
inductive CellVal where
  | num (q : ℚ)
  | str (s : String)
  | na
deriving DecidableEq

/-- One observation record of the loaded spreadsheet (§3 data model).
`none` stands for a missing (NaN) cell. -/
structure Row where
  studySite : String
  survey : String
  rockNumber : ℤ
  species : String
  family : String
  genus : String
  Class : Option String
  individualCount : Option ℤ
  sizeOfOrganism : CellVal
  rockDiameter : Option ℚ
  rockComplexity : Option ℚ
deriving DecidableEq

/-- `pandas.Series.unique`: the distinct values of a column in order of first
appearance (each value is kept at its first occurrence, later duplicates are
dropped). -/
def uniqueFirst {α : Type} [DecidableEq α] : List α → List α
  | [] => []
  | a :: as => a :: (uniqueFirst as).filter (fun b => decide (b ≠ a))

theorem mem_uniqueFirst {α : Type} [DecidableEq α] (l : List α) (a : α) :
    a ∈ uniqueFirst l ↔ a ∈ l := by
  induction l with
  | nil => simp [uniqueFirst]
  | cons b bs ih =>
    simp only [uniqueFirst, List.mem_cons, List.mem_filter, ih]
    by_cases hab : a = b
    · simp [hab]
    · simp [hab]

theorem uniqueFirst_nodup {α : Type} [DecidableEq α] (l : List α) :
    (uniqueFirst l).Nodup := by
  induction l with
  | nil => simp [uniqueFirst]
  | cons b bs ih =>
    refine List.nodup_cons.mpr ⟨?_, ih.filter _⟩
    intro hmem
    rcases List.mem_filter.mp hmem with ⟨_, hne⟩
    simp at hne

/-- `data_df[data_df["Survey"] == sur][col_name].to_list()`: the column values
of the rows carrying a given survey label. -/
def surveyValues {α ν : Type} (survey : α → String) (col : α → ν)
    (df : List α) (sur : String) : List ν :=
  (df.filter (fun r => decide (survey r = sur))).map col

/-- One iteration of the loop in `get_pval_by_survey`: `x` is assigned only
while the flag is up (first iteration), `y` is reassigned every iteration. -/
def surveyStep {α ν : Type} (survey : α → String) (col : α → ν) (df : List α)
    (acc : Option (List ν) × Option (List ν)) (sur : String) :
    Option (List ν) × Option (List ν) :=
  (match acc.1 with
   | none => some (surveyValues survey col df sur)
   | some x => some x,
   some (surveyValues survey col df sur))

/-- The `(x, y)` pair after the `for sur in data_df['Survey'].unique()` loop of
`get_pval_by_survey`. -/
def surveyLoop {α ν : Type} (survey : α → String) (col : α → ν) (df : List α) :
    Option (List ν) × Option (List ν) :=
  (uniqueFirst (df.map survey)).foldl (surveyStep survey col df) (none, none)

/-- `scipy.stats.mannwhitneyu x y`: raises `TypeError` when a sample is
`None`, `ValueError` when one is empty; otherwise the p-value it returns is a
deterministic function of the pair `(x, y)`, which we record. -/
def mannwhitneyuCall {ν : Type} :
    Option (List ν) → Option (List ν) → Except String (List ν × List ν)
  | some x, some y =>
      if x.isEmpty || y.isEmpty then .error "ValueError" else .ok (x, y)
  | _, _ => .error "TypeError"

/-- `get_pval_by_survey` (src/main.py lines 6-21): iterate the distinct survey
labels, keep the first label's values as `x`, overwrite `y` with each label's
values, and run the Mann-Whitney U test on the final `(x, y)`. -/
def get_pval_by_survey {α ν : Type} (survey : α → String) (col : α → ν)
    (df : List α) : Except String (List ν × List ν) :=
  mannwhitneyuCall (surveyLoop survey col df).1 (surveyLoop survey col df).2

theorem getLastD_cons_irrel {α : Type} (a : α) (t : List α) (d d' : α) :
    (a :: t).getLastD d = (a :: t).getLastD d' := by
  rw [List.getLastD_cons, List.getLastD_cons]

theorem getLastD_cons_mem {α : Type} (a : α) (t : List α) (d : α) :
    (a :: t).getLastD d ∈ a :: t := by
  induction t generalizing a with
  | nil => rw [List.getLastD_cons, List.getLastD_nil]; exact List.mem_singleton_self a
  | cons b t ih =>
    rw [List.getLastD_cons]
    exact List.mem_cons_of_mem a (ih b)

theorem foldl_surveyStep_some {α ν : Type} (survey : α → String) (col : α → ν)
    (df : List α) :
    ∀ (ls : List String) (a : List ν) (b : Option (List ν)), ls ≠ [] →
      ls.foldl (surveyStep survey col df) (some a, b) =
        (some a, some (surveyValues survey col df (ls.getLastD ""))) := by
  intro ls
  induction ls with
  | nil => intro a b h; exact absurd rfl h
  | cons x xs ih =>
    intro a b _
    rw [List.foldl_cons]
    cases hxs : xs with
    | nil =>
      subst hxs
      simp [surveyStep, List.getLastD]
    | cons z zs =>
      subst hxs
      have hne : z :: zs ≠ [] := by simp
      have hstep : surveyStep survey col df (some a, b) x =
          (some a, some (surveyValues survey col df x)) := rfl
      rw [hstep, ih a (some (surveyValues survey col df x)) hne]
      simp only [List.getLastD_cons]

/-- The loop of `get_pval_by_survey` leaves `x` holding the first-seen label's
values and `y` holding the last-seen label's values. -/
theorem surveyLoop_spec {α ν : Type} (survey : α → String) (col : α → ν)
    (df : List α) (l0 : String) (rest : List String)
    (h : uniqueFirst (df.map survey) = l0 :: rest) :
    surveyLoop survey col df =
      (some (surveyValues survey col df l0),
       some (surveyValues survey col df ((l0 :: rest).getLastD ""))) := by
  unfold surveyLoop
  rw [h, List.foldl_cons]
  have hstep : surveyStep survey col df (none, none) l0 =
      (some (surveyValues survey col df l0),
       some (surveyValues survey col df l0)) := rfl
  rw [hstep]
  cases hr : rest with
  | nil => simp [List.getLastD]
  | cons z zs =>
    subst hr
    rw [foldl_surveyStep_some survey col df (z :: zs) _ _ (by simp)]
    simp only [List.getLastD_cons]

/-- Every label produced by `unique()` labels at least one row, so its value
list is nonempty. -/
theorem surveyValues_ne_nil {α ν : Type} (survey : α → String) (col : α → ν)
    (df : List α) (sur : String) (h : sur ∈ uniqueFirst (df.map survey)) :
    surveyValues survey col df sur ≠ [] := by
  rw [mem_uniqueFirst, List.mem_map] at h
  obtain ⟨r, hr, hsur⟩ := h
  have hmem : r ∈ df.filter (fun r => decide (survey r = sur)) :=
    List.mem_filter.mpr ⟨hr, by simp [hsur]⟩
  intro hnil
  unfold surveyValues at hnil
  rw [List.map_eq_nil_iff] at hnil
  rw [hnil] at hmem
  simp at hmem

/-- On any table with at least one survey label, `get_pval_by_survey` runs the
test on (first-seen label's values, last-seen label's values). -/
theorem get_pval_eq_first_last {α ν : Type} (survey : α → String) (col : α → ν)
    (df : List α) (h : uniqueFirst (df.map survey) ≠ []) :
    get_pval_by_survey survey col df =
      .ok (surveyValues survey col df ((uniqueFirst (df.map survey)).headD ""),
           surveyValues survey col df ((uniqueFirst (df.map survey)).getLastD "")) := by
  cases hu : uniqueFirst (df.map survey) with
  | nil => exact absurd hu h
  | cons l0 rest =>
    have hx : surveyValues survey col df l0 ≠ [] :=
      surveyValues_ne_nil survey col df l0 (by rw [hu]; simp)
    have hlast : (l0 :: rest).getLastD "" ∈ uniqueFirst (df.map survey) := by
      rw [hu]
      exact getLastD_cons_mem l0 rest ""
    have hy : surveyValues survey col df ((l0 :: rest).getLastD "") ≠ [] :=
      surveyValues_ne_nil survey col df _ hlast
    unfold get_pval_by_survey
    rw [surveyLoop_spec survey col df l0 rest hu]
    simp only [mannwhitneyuCall, hu, List.headD_cons]
    rw [if_neg]
    simp only [List.isEmpty_iff, Bool.or_eq_true, not_or]
    exact ⟨hx, hy⟩

/-- A concrete observation record used to build small test tables. -/
def baseRow : Row :=
  { studySite := "IUI", survey := "High Tide", rockNumber := 1, species := "sp",
    family := "fa", genus := "ge", Class := some "Gastropoda",
    individualCount := some 1, sizeOfOrganism := CellVal.num 1,
    rockDiameter := some 10, rockComplexity := some 3 }

/-- A table whose Survey column carries three distinct regime labels. -/
def exDf3 : List Row :=
  [{ baseRow with survey := "A", individualCount := some 1 },
   { baseRow with survey := "B", individualCount := some 2 },
   { baseRow with survey := "C", individualCount := some 3 }]

/-- C1: on every input table whose Survey column has more than two distinct
labels, `get_pval_by_survey` hands the Mann-Whitney U test exactly the pair
(first-seen label's values, last-seen label's values); the values of every
intermediate label are silently discarded, so changing the measured column on
all rows outside the first-seen and last-seen labels cannot change the call. -/
theorem C1_pval_compares_first_vs_last_only {ν : Type} (col : Row → ν)
    (df : List Row) (h : 2 < (uniqueFirst (df.map Row.survey)).length) :
    get_pval_by_survey Row.survey col df =
      .ok (surveyValues Row.survey col df
             ((uniqueFirst (df.map Row.survey)).headD ""),
           surveyValues Row.survey col df
             ((uniqueFirst (df.map Row.survey)).getLastD "")) ∧
    ∀ col2 : Row → ν,
      (∀ r ∈ df,
        (Row.survey r = (uniqueFirst (df.map Row.survey)).headD "" ∨
         Row.survey r = (uniqueFirst (df.map Row.survey)).getLastD "") →
        col2 r = col r) →
      get_pval_by_survey Row.survey col2 df = get_pval_by_survey Row.survey col df := by
  have hne : uniqueFirst (df.map Row.survey) ≠ [] := by
    intro hnil
    rw [hnil] at h
    simp at h
  refine ⟨get_pval_eq_first_last Row.survey col df hne, ?_⟩
  intro col2 hagree
  rw [get_pval_eq_first_last Row.survey col2 df hne,
      get_pval_eq_first_last Row.survey col df hne]
  have hvals : ∀ lab, lab = (uniqueFirst (df.map Row.survey)).headD "" ∨
      lab = (uniqueFirst (df.map Row.survey)).getLastD "" →
      surveyValues Row.survey col2 df lab = surveyValues Row.survey col df lab := by
    intro lab hlab
    unfold surveyValues
    apply List.map_congr_left
    intro r hr
    rcases List.mem_filter.mp hr with ⟨hrdf, hrs⟩
    have hrs' : Row.survey r = lab := by simpa using hrs
    apply hagree r hrdf
    rcases hlab with h1 | h1
    · exact Or.inl (h1 ▸ hrs')
    · exact Or.inr (h1 ▸ hrs')
  rw [hvals _ (Or.inl rfl), hvals _ (Or.inr rfl)]

theorem C1_witness :
    2 < (uniqueFirst (exDf3.map Row.survey)).length ∧
    get_pval_by_survey Row.survey Row.individualCount exDf3 =
      .ok (surveyValues Row.survey Row.individualCount exDf3
             ((uniqueFirst (exDf3.map Row.survey)).headD ""),
           surveyValues Row.survey Row.individualCount exDf3
             ((uniqueFirst (exDf3.map Row.survey)).getLastD "")) :=
  ⟨by decide,
   (C1_pval_compares_first_vs_last_only Row.individualCount exDf3 (by decide)).1⟩

/-- C2 counterexample: on a table with three distinct regime labels,
`get_pval_by_survey` does not raise — it returns a p-value (the call
succeeds), contradicting the claim that more than two labels raise an
unhandled runtime error. -/
theorem C2_counterexample :
    2 < (uniqueFirst (exDf3.map Row.survey)).length ∧
    (get_pval_by_survey Row.survey Row.individualCount exDf3).isOk = true := by
  decide

/-- C2 amended: on every input table with more than two distinct regime
labels in its Survey column, `get_pval_by_survey` raises no error: the
Mann-Whitney call succeeds and a p-value is returned (computed from the
first-seen and last-seen label groups only). -/
theorem C2_more_than_two_labels_still_returns {ν : Type} (col : Row → ν)
    (df : List Row) (h : 2 < (uniqueFirst (df.map Row.survey)).length) :
    (get_pval_by_survey Row.survey col df).isOk = true := by
  have hne : uniqueFirst (df.map Row.survey) ≠ [] := by
    intro hnil
    rw [hnil] at h
    simp at h
  rw [get_pval_eq_first_last Row.survey col df hne]
  rfl

theorem C2_witness :
    2 < (uniqueFirst (exDf3.map Row.survey)).length ∧
    (get_pval_by_survey Row.survey Row.rockDiameter exDf3).isOk = true :=
  ⟨by decide, C2_more_than_two_labels_still_returns Row.rockDiameter exDf3 (by decide)⟩

/-- pandas `.sum()` over a column of possibly-missing numbers: missing (NaN)
values are skipped. -/
def sumCounts (l : List (Option ℤ)) : ℤ := (l.filterMap id).sum

theorem sumCounts_cons (o : Option ℤ) (l : List (Option ℤ)) :
    sumCounts (o :: l) = o.getD 0 + sumCounts l := by
  cases o with
  | none => simp [sumCounts, List.filterMap_cons]
  | some v => simp [sumCounts, List.filterMap_cons]

theorem sumCounts_map {α : Type} (g : α → Option ℤ) (l : List α) :
    sumCounts (l.map g) = (l.map (fun a => (g a).getD 0)).sum := by
  induction l with
  | nil => rfl
  | cons a t ih => simp [List.map_cons, sumCounts_cons, ih, List.sum_cons]

theorem sum_map_filter_add {α : Type} (p : α → Bool) (f : α → ℤ) (l : List α) :
    ((l.filter p).map f).sum + ((l.filter (fun a => !(p a))).map f).sum
      = (l.map f).sum := by
  induction l with
  | nil => simp
  | cons a t ih =>
    cases hpa : p a with
    | true =>
      simp [List.filter_cons, hpa]
      omega
    | false =>
      simp [List.filter_cons, hpa]
      omega

/-- Splitting a sum over a list by a key: summing the group sums over a
duplicate-free list of keys covering every row gives the whole sum. -/
theorem sum_partition {α κ : Type} [DecidableEq κ] (key : α → κ) (f : α → ℤ) :
    ∀ (ks : List κ) (l : List α), ks.Nodup → (∀ a ∈ l, key a ∈ ks) →
      (ks.map (fun k => ((l.filter (fun a => decide (key a = k))).map f).sum)).sum
        = (l.map f).sum := by
  intro ks
  induction ks with
  | nil =>
    intro l _ hcov
    cases l with
    | nil => simp
    | cons a t => exact absurd (hcov a (List.mem_cons_self a t)) (by simp)
  | cons k ks ih =>
    intro l hnd hcov
    have hk : k ∉ ks := (List.nodup_cons.mp hnd).1
    have hnd' : ks.Nodup := (List.nodup_cons.mp hnd).2
    have hcov' : ∀ a ∈ l.filter (fun a => !(decide (key a = k))), key a ∈ ks := by
      intro a ha
      rcases List.mem_filter.mp ha with ⟨hal, hne⟩
      have hne' : key a ≠ k := by simpa using hne
      rcases List.mem_cons.mp (hcov a hal) with h1 | h1
      · exact absurd h1 hne'
      · exact h1
    have hmain := ih (l.filter (fun a => !(decide (key a = k)))) hnd' hcov'
    have hterm : ∀ k' ∈ ks,
        ((l.filter (fun a => decide (key a = k'))).map f).sum
          = (((l.filter (fun a => !(decide (key a = k)))).filter
              (fun a => decide (key a = k'))).map f).sum := by
      intro k' hk'
      have hkk : k' ≠ k := fun he => hk (he ▸ hk')
      have hfil : (l.filter (fun a => !(decide (key a = k)))).filter
          (fun a => decide (key a = k'))
          = l.filter (fun a => decide (key a = k')) := by
        rw [List.filter_filter]
        apply List.filter_congr
        intro a _
        by_cases hka : key a = k'
        · simp [hka, hkk]
        · simp [hka]
      rw [hfil]
    rw [List.map_cons, List.sum_cons, List.map_congr_left hterm, hmain]
    exact sum_map_filter_add (fun a => decide (key a = k)) f l

/-- `df['Sample Key'] = df['Study Site'] + df['Survey'] + df['Rock number '].astype(str)` -/
def sampleKey (r : Row) : String := r.studySite ++ r.survey ++ toString r.rockNumber

/-- `df['Tax Key'] = df['Species'] + df['Family'] + df['Genus']` -/
def taxKey (r : Row) : String := r.species ++ r.family ++ r.genus

/-- One cell of `pivot_table(index='Sample Key', columns='Tax Key',
values='Individual Count', aggfunc='sum').fillna(0)`: the summed counts of the
rows carrying both keys; a combination with no (non-missing) data is `NaN`
before `fillna(0)` and `0` after it. -/
def pivotEntry (df : List Row) (s t : String) : ℤ :=
  sumCounts ((df.filter (fun r => decide (sampleKey r = s ∧ taxKey r = t))).map
    Row.individualCount)

/-- The row index of the pivot: the distinct Sample Keys. -/
def sampleKeys (df : List Row) : List String := uniqueFirst (df.map sampleKey)

/-- The column index of the pivot: the distinct Tax Keys. -/
def taxKeys (df : List Row) : List String := uniqueFirst (df.map taxKey)

/-- `create_fisher_alpha_df` (src/main.py lines 24-30): the sample-by-taxon
matrix written to `to_fisher_alpha_df.csv`, as (row keys, column keys, cells). -/
def create_fisher_alpha_df (df : List Row) :
    List String × List String × (String → String → ℤ) :=
  (sampleKeys df, taxKeys df, fun s t => pivotEntry df s t)

/-- C3: the Fisher-alpha pivot matrix has no missing cells — every Sample Key
× Tax Key combination not backed by any row holds 0 — and for every Tax Key
the column sum over all sample keys equals the total Individual Count
recorded for that Tax Key across all samples. -/
theorem C3_fisher_matrix_total_and_column_sums (df : List Row) :
    (∀ s t, (∀ r ∈ df, ¬(sampleKey r = s ∧ taxKey r = t)) →
      (create_fisher_alpha_df df).2.2 s t = 0) ∧
    (∀ t, ((sampleKeys df).map (fun s => (create_fisher_alpha_df df).2.2 s t)).sum
      = sumCounts ((df.filter (fun r => decide (taxKey r = t))).map
          Row.individualCount)) := by
  constructor
  · intro s t hno
    have hfil : df.filter (fun r => decide (sampleKey r = s ∧ taxKey r = t)) = [] := by
      rw [List.filter_eq_nil_iff]
      intro a ha
      simp [hno a ha]
    show pivotEntry df s t = 0
    unfold pivotEntry
    rw [hfil]
    rfl
  · intro t
    have hcov : ∀ r ∈ df.filter (fun r => decide (taxKey r = t)),
        sampleKey r ∈ sampleKeys df := by
      intro r hr
      exact (mem_uniqueFirst _ _).mpr
        (List.mem_map_of_mem sampleKey (List.mem_of_mem_filter hr))
    have hpart := sum_partition sampleKey (fun r => (Row.individualCount r).getD 0)
      (sampleKeys df) (df.filter (fun r => decide (taxKey r = t)))
      (uniqueFirst_nodup _) hcov
    have hcell : ∀ s, (create_fisher_alpha_df df).2.2 s t
        = (((df.filter (fun r => decide (taxKey r = t))).filter
            (fun r => decide (sampleKey r = s))).map
            (fun r => (Row.individualCount r).getD 0)).sum := by
      intro s
      show pivotEntry df s t = _
      unfold pivotEntry
      rw [sumCounts_map]
      have hfil : (df.filter (fun r => decide (taxKey r = t))).filter
          (fun r => decide (sampleKey r = s))
          = df.filter (fun r => decide (sampleKey r = s ∧ taxKey r = t)) := by
        rw [List.filter_filter]
        apply List.filter_congr
        intro a _
        rw [Bool.decide_and]
      rw [hfil]
    calc ((sampleKeys df).map (fun s => (create_fisher_alpha_df df).2.2 s t)).sum
        = ((sampleKeys df).map (fun s =>
            (((df.filter (fun r => decide (taxKey r = t))).filter
              (fun r => decide (sampleKey r = s))).map
              (fun r => (Row.individualCount r).getD 0)).sum)).sum := by
          rw [List.map_congr_left (fun s _ => hcell s)]
      _ = ((df.filter (fun r => decide (taxKey r = t))).map
            (fun r => (Row.individualCount r).getD 0)).sum := hpart
      _ = sumCounts ((df.filter (fun r => decide (taxKey r = t))).map
            Row.individualCount) := (sumCounts_map _ _).symm

theorem C3_witness :
    (create_fisher_alpha_df exDf3).2.2 "zz" "zz" = 0 ∧
    ((sampleKeys exDf3).map
        (fun s => (create_fisher_alpha_df exDf3).2.2 s "spfage")).sum
      = sumCounts ((exDf3.filter (fun r => decide (taxKey r = "spfage"))).map
          Row.individualCount) :=
  ⟨(C3_fisher_matrix_total_and_column_sums exDf3).1 "zz" "zz" (by decide),
   (C3_fisher_matrix_total_and_column_sums exDf3).2 "spfage"⟩

theorem surveyValues_map {α β ν : Type} (f : α → β) (s : α → String)
    (s2 : β → String) (c : α → ν) (c2 : β → ν)
    (hs : ∀ a, s2 (f a) = s a) (hc : ∀ a, c2 (f a) = c a)
    (df : List α) (sur : String) :
    surveyValues s2 c2 (df.map f) sur = surveyValues s c df sur := by
  unfold surveyValues
  rw [List.filter_map, List.map_map]
  have h1 : ((fun b => decide (s2 b = sur)) ∘ f) = fun a => decide (s a = sur) := by
    funext a
    simp [Function.comp, hs a]
  rw [h1]
  apply List.map_congr_left
  intro a _
  simp [Function.comp, hc a]

/-- `get_pval_by_survey` only reads the survey label and the measured column
of each row, so it is invariant under any reshaping of the rows that
preserves those two projections. -/
theorem get_pval_map {α β ν : Type} (f : α → β) (s : α → String)
    (s2 : β → String) (c : α → ν) (c2 : β → ν)
    (hs : ∀ a, s2 (f a) = s a) (hc : ∀ a, c2 (f a) = c a) (df : List α) :
    get_pval_by_survey s2 c2 (df.map f) = get_pval_by_survey s c df := by
  have hlabels : (df.map f).map s2 = df.map s := by
    rw [List.map_map]
    exact List.map_congr_left (fun a _ => hs a)
  have hstep : surveyStep s2 c2 (df.map f) = surveyStep s c df := by
    funext acc sur
    unfold surveyStep
    rw [surveyValues_map f s s2 c c2 hs hc df sur]
  unfold get_pval_by_survey surveyLoop
  rw [hlabels, hstep]

/-- `data_df['Individual Count'].where(data_df['Individual Count'] <= 50, 50)`
applied to one cell: pandas `.where` keeps the value where the condition
holds and writes 50 elsewhere (a missing value fails `NaN <= 50`, so it too
becomes 50). -/
def countFixedVal : Option ℤ → ℤ
  | some c => if c ≤ 50 then c else 50
  | none => 50

/-- `overview_data_individuals_per_rock` (src/main.py lines 106-131): adds the
capped column "Count Fixed", draws the boxplot on it, and annotates the
p-value of `get_pval_by_survey(data_df, "Individual Count")` — computed on
the original, uncapped column of the same table. -/
def overview_data_individuals_per_rock (df : List Row) :
    List (Row × ℤ) × Except String (List (Option ℤ) × List (Option ℤ)) :=
  (df.map (fun r => (r, countFixedVal r.individualCount)),
   get_pval_by_survey (fun p => p.1.survey) (fun p => p.1.individualCount)
     (df.map (fun r => (r, countFixedVal r.individualCount))))

/-- C4: in the individuals-per-rock capping, every Individual Count value
strictly greater than 50 is represented as exactly 50 in the "Count Fixed"
column, and every value at most 50 is carried over unchanged. -/
theorem C4_counts_capped_at_50 (df : List Row) :
    ∀ p ∈ (overview_data_individuals_per_rock df).1, ∀ c : ℤ,
      p.1.individualCount = some c →
      (50 < c → p.2 = 50) ∧ (c ≤ 50 → p.2 = c) := by
  intro p hp c hc
  rcases List.mem_map.mp hp with ⟨r, _, hpr⟩
  subst hpr
  have hc' : r.individualCount = some c := hc
  constructor
  · intro hlt
    show countFixedVal r.individualCount = 50
    rw [hc']
    show (if c ≤ 50 then c else 50) = 50
    rw [if_neg (by omega)]
  · intro hle
    show countFixedVal r.individualCount = c
    rw [hc']
    show (if c ≤ 50 then c else 50) = c
    rw [if_pos hle]

/-- Table exercising both sides of the 50 cap. -/
def exDf4 : List Row :=
  [{ baseRow with individualCount := some 99 },
   { baseRow with survey := "Low Tide", individualCount := some 7 }]

theorem C4_witness :
    countFixedVal (some 99) = 50 ∧ countFixedVal (some 7) = 7 :=
  ⟨(C4_counts_capped_at_50 exDf4
      ({ baseRow with individualCount := some 99 }, countFixedVal (some 99))
      (List.mem_map_of_mem _ (List.mem_cons_self _ _)) 99 rfl).1 (by decide),
   (C4_counts_capped_at_50 exDf4
      ({ baseRow with survey := "Low Tide", individualCount := some 7 },
       countFixedVal (some 7))
      (List.mem_map_of_mem _
        (List.mem_cons_of_mem _ (List.mem_cons_self _ _))) 7 rfl).2 (by decide)⟩

/-- `data_df["Size of the organism (cm)"].replace(">0.1", 0.001)` applied to
one cell (the float literal 0.001 is the rational 1/1000 here). -/
def sizeFixedVal (v : CellVal) : CellVal :=
  if v = CellVal.str ">0.1" then CellVal.num (1/1000) else v

/-- `overview_data_individuals_size` (src/main.py lines 134-164): adds the
recoded column "Size fixed (cm)" and annotates the p-value computed on that
recoded column. -/
def overview_data_individuals_size (df : List Row) :
    List (Row × CellVal) × Except String (List CellVal × List CellVal) :=
  (df.map (fun r => (r, sizeFixedVal r.sizeOfOrganism)),
   get_pval_by_survey (fun p => p.1.survey) (fun p => p.2)
     (df.map (fun r => (r, sizeFixedVal r.sizeOfOrganism))))

/-- C5: in the size recoding, every occurrence of the sentinel string ">0.1"
becomes the literal 0.001 in the "Size fixed (cm)" column, and every other
value passes through unchanged. -/
theorem C5_size_sentinel_recoded (df : List Row) :
    ∀ p ∈ (overview_data_individuals_size df).1,
      (p.1.sizeOfOrganism = CellVal.str ">0.1" → p.2 = CellVal.num (1/1000)) ∧
      (p.1.sizeOfOrganism ≠ CellVal.str ">0.1" → p.2 = p.1.sizeOfOrganism) := by
  intro p hp
  rcases List.mem_map.mp hp with ⟨r, _, hpr⟩
  subst hpr
  constructor
  · intro hs
    have hs' : r.sizeOfOrganism = CellVal.str ">0.1" := hs
    show sizeFixedVal r.sizeOfOrganism = CellVal.num (1/1000)
    unfold sizeFixedVal
    rw [if_pos hs']
  · intro hs
    have hs' : r.sizeOfOrganism ≠ CellVal.str ">0.1" := hs
    show sizeFixedVal r.sizeOfOrganism = r.sizeOfOrganism
    unfold sizeFixedVal
    rw [if_neg hs']

/-- Table exercising both sides of the ">0.1" sentinel recoding. -/
def exDf5 : List Row :=
  [{ baseRow with sizeOfOrganism := CellVal.str ">0.1" },
   { baseRow with survey := "Low Tide", sizeOfOrganism := CellVal.num 2 }]

theorem C5_witness :
    sizeFixedVal (CellVal.str ">0.1") = CellVal.num (1/1000) ∧
    sizeFixedVal (CellVal.num 2) = CellVal.num 2 :=
  ⟨(C5_size_sentinel_recoded exDf5
      ({ baseRow with sizeOfOrganism := CellVal.str ">0.1" },
       sizeFixedVal (CellVal.str ">0.1"))
      (List.mem_map_of_mem _ (List.mem_cons_self _ _))).1 rfl,
   (C5_size_sentinel_recoded exDf5
      ({ baseRow with survey := "Low Tide", sizeOfOrganism := CellVal.num 2 },
       sizeFixedVal (CellVal.num 2))
      (List.mem_map_of_mem _
        (List.mem_cons_of_mem _ (List.mem_cons_self _ _)))).2 (by decide)⟩

/-- C10: the cap writes only the new "Count Fixed" column — the Individual
Count column of the table is unchanged — and the annotated p-value is the
Mann-Whitney call on the uncapped Individual Count column, so on every input
table the reported p-value is identical with or without the cap. -/
theorem C10_pval_identical_with_or_without_cap (df : List Row) :
    ((overview_data_individuals_per_rock df).1.map (fun p => p.1.individualCount)
       = df.map Row.individualCount) ∧
    (overview_data_individuals_per_rock df).2
       = get_pval_by_survey Row.survey Row.individualCount df := by
  constructor
  · show (df.map (fun r => (r, countFixedVal r.individualCount))).map
        (fun p => p.1.individualCount) = df.map Row.individualCount
    rw [List.map_map]
    rfl
  · exact get_pval_map (fun r => (r, countFixedVal r.individualCount))
      Row.survey (fun p => p.1.survey) Row.individualCount
      (fun p => p.1.individualCount) (fun a => rfl) (fun a => rfl) df

/-- Python `str.strip()`: remove leading and trailing whitespace. -/
def pyStrip (s : String) : String :=
  String.mk (((s.data.dropWhile Char.isWhitespace).reverse.dropWhile
    Char.isWhitespace).reverse)

/-- `lambda x: x.strip() if isinstance(x, str) else x` on one mixed cell. -/
def stripCell : CellVal → CellVal
  | CellVal.str s => CellVal.str (pyStrip s)
  | v => v

/-- `df.applymap(lambda x: x.strip() if isinstance(x, str) else x)` (line 266)
on one row: every string cell is stripped, every other cell is untouched. -/
def stripRow (r : Row) : Row :=
  { r with studySite := pyStrip r.studySite, survey := pyStrip r.survey,
           species := pyStrip r.species, family := pyStrip r.family,
           genus := pyStrip r.genus, Class := r.Class.map pyStrip,
           sizeOfOrganism := stripCell r.sizeOfOrganism }

/-- The whitespace-cleaned shared table (`df` right after line 266). -/
def loadClean (df0 : List Row) : List Row := df0.map stripRow

/-- `species_df = df[df.Class.notnull()]` (line 271): the snapshot of rows
with a non-missing Class, taken before the Individual Count fill. -/
def species_df (df : List Row) : List Row := df.filter (fun r => r.Class.isSome)

/-- `df['Individual Count'] = df['Individual Count'].fillna(0)` (line 274)
on one row of the shared table. -/
def fillCountRow (r : Row) : Row :=
  { r with individualCount := some (r.individualCount.getD 0) }

/-- The shared table after the in-place fill of line 274. -/
def df_filled (df0 : List Row) : List Row := (loadClean df0).map fillCountRow

/-- `tide_df = species_df[species_df['Survey'].isin(['High Tide', 'Low Tide'])]`
(line 282): derived from the pre-fill snapshot. -/
def tide_df (df0 : List Row) : List Row :=
  (species_df (loadClean df0)).filter
    (fun r => decide (r.survey = "High Tide" ∨ r.survey = "Low Tide"))

/-- `time_df = species_df[species_df['Survey'].isin(['Day', 'Night'])]`
(line 283): derived from the pre-fill snapshot. -/
def time_df (df0 : List Row) : List Row :=
  (species_df (loadClean df0)).filter
    (fun r => decide (r.survey = "Day" ∨ r.survey = "Night"))

/-- `tide_df_with_zeroes = df[df['Survey'].isin(['High Tide', 'Low Tide'])]`
(line 285): derived from the shared table after the fill. -/
def tide_df_with_zeroes (df0 : List Row) : List Row :=
  (df_filled df0).filter
    (fun r => decide (r.survey = "High Tide" ∨ r.survey = "Low Tide"))

/-- `time_df_with_zeroes = df[df['Survey'].isin(['Day', 'Night'])]`
(line 286): derived from the shared table after the fill. -/
def time_df_with_zeroes (df0 : List Row) : List Row :=
  (df_filled df0).filter
    (fun r => decide (r.survey = "Day" ∨ r.survey = "Night"))

/-- C6: loading N rows and dropping rows with a missing Class yields at most
N rows, every surviving row has a non-missing Class, and every row with a
non-missing Class is retained. -/
theorem C6_drop_null_class (df0 : List Row) :
    (species_df (loadClean df0)).length ≤ (loadClean df0).length ∧
    (loadClean df0).length = df0.length ∧
    (∀ r ∈ species_df (loadClean df0), r.Class.isSome = true) ∧
    (∀ r ∈ loadClean df0, r.Class.isSome = true →
      r ∈ species_df (loadClean df0)) := by
  refine ⟨List.length_filter_le _ _, List.length_map _ _, ?_, ?_⟩
  · intro r hr
    exact (List.mem_filter.mp hr).2
  · intro r hr h
    exact List.mem_filter.mpr ⟨hr, h⟩

theorem C6_witness :
    (species_df (loadClean exDf3)).length ≤ (loadClean exDf3).length ∧
    stripRow { baseRow with survey := "A", individualCount := some 1 }
      ∈ species_df (loadClean exDf3) :=
  ⟨(C6_drop_null_class exDf3).1,
   (C6_drop_null_class exDf3).2.2.2 _
     (List.mem_map_of_mem stripRow (List.mem_cons_self _ _)) rfl⟩

/-- C9: the in-place fill of missing Individual Count values touches only the
shared table.  The tide/time subsets cut from the earlier species_df snapshot
still carry the original (possibly missing) counts, while the with-zeroes
subsets cut from the filled shared table always carry a present count and
hold `some 0` exactly where the same underlying row was missing — so the two
families of subsets diverge on the same rows. -/
theorem C9_fill_only_mutates_shared_table (df0 : List Row) :
    (∀ r ∈ tide_df df0, r ∈ species_df (loadClean df0)) ∧
    (∀ r ∈ time_df df0, r ∈ species_df (loadClean df0)) ∧
    (∀ r ∈ tide_df_with_zeroes df0, r.individualCount.isSome = true) ∧
    (∀ r ∈ time_df_with_zeroes df0, r.individualCount.isSome = true) ∧
    (∀ r ∈ loadClean df0, r.individualCount = none →
      ((r.survey = "High Tide" ∨ r.survey = "Low Tide") →
        (r.Class.isSome = true → r ∈ tide_df df0) ∧
        fillCountRow r ∈ tide_df_with_zeroes df0 ∧
        (fillCountRow r).individualCount = some 0) ∧
      ((r.survey = "Day" ∨ r.survey = "Night") →
        (r.Class.isSome = true → r ∈ time_df df0) ∧
        fillCountRow r ∈ time_df_with_zeroes df0 ∧
        (fillCountRow r).individualCount = some 0)) := by
  refine ⟨?_, ?_, ?_, ?_, ?_⟩
  · intro r hr
    exact List.mem_of_mem_filter hr
  · intro r hr
    exact List.mem_of_mem_filter hr
  · intro r hr
    have hr' : r ∈ df_filled df0 := List.mem_of_mem_filter hr
    rcases List.mem_map.mp hr' with ⟨a, _, ha⟩
    subst ha
    rfl
  · intro r hr
    have hr' : r ∈ df_filled df0 := List.mem_of_mem_filter hr
    rcases List.mem_map.mp hr' with ⟨a, _, ha⟩
    subst ha
    rfl
  · intro r hr hnone
    have hcount : (fillCountRow r).individualCount = some 0 := by
      show some (r.individualCount.getD 0) = some 0
      rw [hnone]
      rfl
    constructor
    · intro hsur
      refine ⟨?_, ?_, hcount⟩
      · intro hcls
        exact List.mem_filter.mpr
          ⟨List.mem_filter.mpr ⟨hr, hcls⟩, decide_eq_true hsur⟩
      · refine List.mem_filter.mpr
          ⟨List.mem_map_of_mem fillCountRow hr, decide_eq_true ?_⟩
        exact hsur
    · intro hsur
      refine ⟨?_, ?_, hcount⟩
      · intro hcls
        exact List.mem_filter.mpr
          ⟨List.mem_filter.mpr ⟨hr, hcls⟩, decide_eq_true hsur⟩
      · refine List.mem_filter.mpr
          ⟨List.mem_map_of_mem fillCountRow hr, decide_eq_true ?_⟩
        exact hsur

/-- A high-tide observation row whose Individual Count is missing. -/
def exRow9 : Row := { baseRow with survey := "High Tide", individualCount := none }

/-- Table with missing Individual Count values in a tide row and a time row. -/
def exDf9 : List Row :=
  [exRow9, { baseRow with survey := "Day", individualCount := none }]

theorem C9_witness :
    stripRow exRow9 ∈ tide_df exDf9 ∧
    fillCountRow (stripRow exRow9) ∈ tide_df_with_zeroes exDf9 ∧
    (fillCountRow (stripRow exRow9)).individualCount = some 0 := by
  have H := (C9_fill_only_mutates_shared_table exDf9).2.2.2.2
    (stripRow exRow9)
    (List.mem_map_of_mem stripRow (List.mem_cons_self _ _)) rfl
  obtain ⟨h1, h2, h3⟩ := H.1 (Or.inl (by decide))
  exact ⟨h1 rfl, h2, h3⟩

/-- `int(df['Individual Count'].sum())`: the subset's total Individual Count
(counts are whole numbers, so Python's `int(...)` is the identity here). -/
def totalCount (df : List Row) : ℤ := sumCounts (df.map Row.individualCount)

/-- The per-class aggregation behind `px.pie(values='Individual Count',
names='Class')`: one slice per distinct Class value, holding the summed
counts of its rows. -/
def pieData (df : List Row) : List (Option String × ℤ) :=
  (uniqueFirst (df.map Row.Class)).map
    (fun c => (c, sumCounts ((df.filter (fun r => decide (r.Class = c))).map
      Row.individualCount)))

/-- `create_site_composition_plot` (src/main.py lines 47-58): the pie's
underlying data and the total displayed in the chart title. -/
def create_site_composition_plot (df : List Row) :
    List (Option String × ℤ) × ℤ :=
  (pieData df, totalCount df)

/-- The per-(Class, Survey) aggregation behind `px.histogram(x='Class',
y='Individual Count', facet_col='Survey')`. -/
def barData (df : List Row) : List ((Option String × String) × ℤ) :=
  (uniqueFirst (df.map (fun r => (r.Class, r.survey)))).map
    (fun k => (k, sumCounts ((df.filter
      (fun r => decide ((r.Class, r.survey) = k))).map Row.individualCount)))

/-- `compare_tides_class_barplot` (src/main.py lines 61-74): the chart's
underlying data and the two totals shown in the title.
`tide_df[df['Survey'] == 'High Tide']` indexes the subset with a boolean mask
built on the shared table; pandas aligns the mask over the common row index,
so it selects exactly the subset's own rows whose Survey is 'High Tide'. -/
def compare_tides_class_barplot (df : List Row) :
    List ((Option String × String) × ℤ) × ℤ × ℤ :=
  (barData df,
   sumCounts ((df.filter (fun r => decide (r.survey = "High Tide"))).map
     Row.individualCount),
   sumCounts ((df.filter (fun r => decide (r.survey = "Low Tide"))).map
     Row.individualCount))

/-- `compare_times_class_barplot` (src/main.py lines 77-90): underlying data
plus the night and day totals of the title. -/
def compare_times_class_barplot (df : List Row) :
    List ((Option String × String) × ℤ) × ℤ × ℤ :=
  (barData df,
   sumCounts ((df.filter (fun r => decide (r.survey = "Night"))).map
     Row.individualCount),
   sumCounts ((df.filter (fun r => decide (r.survey = "Day"))).map
     Row.individualCount))

/-- Summing the per-group totals over the distinct values of any key gives
the table's total Individual Count. -/
theorem group_sums {κ : Type} [DecidableEq κ] (key : Row → κ) (df : List Row) :
    ((uniqueFirst (df.map key)).map (fun k =>
      sumCounts ((df.filter (fun r => decide (key r = k))).map
        Row.individualCount))).sum = totalCount df := by
  have hcov : ∀ r ∈ df, key r ∈ uniqueFirst (df.map key) := by
    intro r hr
    exact (mem_uniqueFirst _ _).mpr (List.mem_map_of_mem key hr)
  have hpart := sum_partition key (fun r => (Row.individualCount r).getD 0)
    (uniqueFirst (df.map key)) df (uniqueFirst_nodup _) hcov
  have hbody : ∀ k ∈ uniqueFirst (df.map key),
      sumCounts ((df.filter (fun r => decide (key r = k))).map
        Row.individualCount)
      = ((df.filter (fun r => decide (key r = k))).map
          (fun r => (Row.individualCount r).getD 0)).sum :=
    fun k _ => sumCounts_map _ _
  rw [List.map_congr_left hbody, hpart]
  unfold totalCount
  exact (sumCounts_map _ _).symm

/-- C7: for every subset handed to a composition chart, the per-category
values underlying the chart sum to the subset's total Individual Count, and
that total is what the chart title reports (for the tide/time charts the
title reports the two per-regime totals, which sum to the subset total
whenever the subset only carries the two regime labels, as the pipeline
subsets do). -/
theorem C7_composition_chart_totals (df : List Row) :
    (((create_site_composition_plot df).1.map Prod.snd).sum
       = (create_site_composition_plot df).2) ∧
    (((compare_tides_class_barplot df).1.map Prod.snd).sum = totalCount df) ∧
    ((∀ r ∈ df, r.survey = "High Tide" ∨ r.survey = "Low Tide") →
      (compare_tides_class_barplot df).2.1 + (compare_tides_class_barplot df).2.2
        = totalCount df) ∧
    ((∀ r ∈ df, r.survey = "Day" ∨ r.survey = "Night") →
      (compare_times_class_barplot df).2.1 + (compare_times_class_barplot df).2.2
        = totalCount df) := by
  refine ⟨?_, ?_, ?_, ?_⟩
  · show ((pieData df).map Prod.snd).sum = totalCount df
    unfold pieData
    rw [List.map_map]
    exact group_sums Row.Class df
  · show ((barData df).map Prod.snd).sum = totalCount df
    unfold barData
    rw [List.map_map]
    exact group_sums (fun r => (r.Class, r.survey)) df
  · intro hyp
    have hcov : ∀ r ∈ df, Row.survey r ∈ ["High Tide", "Low Tide"] := by
      intro r hr
      rcases hyp r hr with h | h <;> simp [h]
    have hpart := sum_partition Row.survey
      (fun r => (Row.individualCount r).getD 0)
      ["High Tide", "Low Tide"] df (by decide) hcov
    show sumCounts ((df.filter (fun r => decide (r.survey = "High Tide"))).map
        Row.individualCount)
      + sumCounts ((df.filter (fun r => decide (r.survey = "Low Tide"))).map
        Row.individualCount) = totalCount df
    rw [sumCounts_map, sumCounts_map]
    unfold totalCount
    rw [sumCounts_map]
    simpa using hpart
  · intro hyp
    have hcov : ∀ r ∈ df, Row.survey r ∈ ["Night", "Day"] := by
      intro r hr
      rcases hyp r hr with h | h <;> simp [h]
    have hpart := sum_partition Row.survey
      (fun r => (Row.individualCount r).getD 0)
      ["Night", "Day"] df (by decide) hcov
    show sumCounts ((df.filter (fun r => decide (r.survey = "Night"))).map
        Row.individualCount)
      + sumCounts ((df.filter (fun r => decide (r.survey = "Day"))).map
        Row.individualCount) = totalCount df
    rw [sumCounts_map, sumCounts_map]
    unfold totalCount
    rw [sumCounts_map]
    simpa using hpart

/-- A day/night table for the time-comparison chart. -/
def exDf7 : List Row :=
  [{ baseRow with survey := "Day", individualCount := some 5 },
   { baseRow with survey := "Night", individualCount := some 2 }]

theorem C7_witness :
    (((create_site_composition_plot exDf4).1.map Prod.snd).sum
       = (create_site_composition_plot exDf4).2) ∧
    ((compare_tides_class_barplot exDf4).2.1
       + (compare_tides_class_barplot exDf4).2.2 = totalCount exDf4) ∧
    ((compare_times_class_barplot exDf7).2.1
       + (compare_times_class_barplot exDf7).2.2 = totalCount exDf7) :=
  ⟨(C7_composition_chart_totals exDf4).1,
   (C7_composition_chart_totals exDf4).2.2.1 (by decide),
   (C7_composition_chart_totals exDf7).2.2.2 (by decide)⟩

/-- `sub.groupby("Class").count().to_dict()["Individual Count"]` for the rows
of one survey label: one entry per distinct (non-missing) Class, holding the
number of rows of that class whose Individual Count cell is non-missing —
pandas `.count()` counts non-null cells only. -/
def observationCounts (df : List Row) (sur : String) : List (String × ℕ) :=
  (uniqueFirst ((df.filter (fun r => decide (r.survey = sur))).filterMap
      Row.Class)).map
    (fun c => (c, ((df.filter (fun r => decide (r.survey = sur))).filter
      (fun r => decide (r.Class = some c ∧ r.individualCount.isSome = true))).length))

/-- Stable insertion into a list sorted by count, descending. -/
def insertByCountDesc (a : String × ℕ) : List (String × ℕ) → List (String × ℕ)
  | [] => [a]
  | b :: t => if b.2 ≤ a.2 then a :: b :: t else b :: insertByCountDesc a t

/-- `sorted(d.items(), key=lambda item: item[1], reverse=True)`: Python's
stable sort by count, descending. -/
def sortByCountDesc : List (String × ℕ) → List (String × ℕ)
  | [] => []
  | a :: t => insertByCountDesc a (sortByCountDesc t)

theorem mem_insertByCountDesc (x a : String × ℕ) :
    ∀ l, x ∈ insertByCountDesc a l ↔ x = a ∨ x ∈ l := by
  intro l
  induction l with
  | nil => simp [insertByCountDesc]
  | cons b t ih =>
    unfold insertByCountDesc
    by_cases h : b.2 ≤ a.2
    · simp [h]
    · simp only [h, if_false, List.mem_cons, ih]
      tauto

theorem mem_sortByCountDesc (x : String × ℕ) :
    ∀ l, x ∈ sortByCountDesc l ↔ x ∈ l := by
  intro l
  induction l with
  | nil => simp [sortByCountDesc]
  | cons a t ih =>
    unfold sortByCountDesc
    rw [mem_insertByCountDesc, ih]
    simp

/-- `compare_tides_observation_diff_class_barplot` (src/main.py lines
215-236): per-class non-null counts for the two tides, the low-tide entries
sorted by count descending, each family tagged and concatenated into the
chart's underlying data. -/
def compare_tides_observation_diff_class_barplot (df : List Row) :
    List (String × ℕ × String) :=
  (sortByCountDesc (observationCounts df "Low Tide")).map
      (fun p => (p.1, p.2, "Low"))
    ++ (observationCounts df "High Tide").map (fun p => (p.1, p.2, "High"))

/-- `compare_times_observation_diff_class_barplot` (src/main.py lines
239-260): same chart for day (sorted) vs night. -/
def compare_times_observation_diff_class_barplot (df : List Row) :
    List (String × ℕ × String) :=
  (sortByCountDesc (observationCounts df "Day")).map
      (fun p => (p.1, p.2, "Day"))
    ++ (observationCounts df "Night").map (fun p => (p.1, p.2, "Night"))

/-- A low-tide class-"A" observation whose Individual Count is missing. -/
def exRow8a : Row :=
  { baseRow with survey := "Low Tide", Class := some "A", individualCount := none }

/-- A low-tide class-"A" observation with a present count. -/
def exRow8b : Row :=
  { baseRow with survey := "Low Tide", Class := some "A", individualCount := some 3 }

/-- Low-tide class-"A" group with one missing and one present count. -/
def exDf8 : List Row := [exRow8a, exRow8b]

/-- C8 counterexample: the low-tide class-"A" group has two distinct
observation rows, yet the chart reports 1 for it — `.count()` skips the row
whose Individual Count is missing, so the reported number is not the number
of distinct observation rows in the group. -/
theorem C8_counterexample :
    ("A", 1, "Low") ∈ compare_tides_observation_diff_class_barplot exDf8 ∧
    (exDf8.filter (fun r =>
      decide (r.survey = "Low Tide" ∧ r.Class = some "A"))).length = 2 ∧
    (1 : ℕ) ≠ 2 := by
  decide

theorem tagged_mem_split {pL pH : List (String × ℕ)} {c : String} {n : ℕ}
    {tL tH tag : String}
    (h : (c, n, tag) ∈ pL.map (fun p => (p.1, p.2, tL))
        ++ pH.map (fun p => (p.1, p.2, tH))) :
    (tag = tL ∧ (c, n) ∈ pL) ∨ (tag = tH ∧ (c, n) ∈ pH) := by
  rcases List.mem_append.mp h with h1 | h1
  · rcases List.mem_map.mp h1 with ⟨p, hp, he⟩
    rw [Prod.ext_iff, Prod.ext_iff] at he
    obtain ⟨e1, e2, e3⟩ := he
    left
    refine ⟨e3.symm, ?_⟩
    have : p = (c, n) := Prod.ext e1 e2
    rw [this] at hp
    exact hp
  · rcases List.mem_map.mp h1 with ⟨p, hp, he⟩
    rw [Prod.ext_iff, Prod.ext_iff] at he
    obtain ⟨e1, e2, e3⟩ := he
    right
    refine ⟨e3.symm, ?_⟩
    have : p = (c, n) := Prod.ext e1 e2
    rw [this] at hp
    exact hp

theorem observationCounts_reports_nonnull (df : List Row) (sur c : String)
    (n : ℕ) (h : (c, n) ∈ observationCounts df sur) :
    n = (df.filter (fun r => decide (r.survey = sur ∧ r.Class = some c ∧
      r.individualCount.isSome = true))).length := by
  unfold observationCounts at h
  rcases List.mem_map.mp h with ⟨c', _, he⟩
  rw [Prod.ext_iff] at he
  obtain ⟨e1, e2⟩ := he
  simp only at e1 e2
  subst e1
  rw [← e2]
  congr 1
  rw [List.filter_filter]
  apply List.filter_congr
  intro r _
  simp only [Bool.decide_and]
  by_cases h1 : r.survey = sur
  · simp [h1]
  · simp [h1]

theorem observationCounts_counts_rows_when_no_missing (df : List Row)
    (sur c : String)
    (hyp : ∀ r ∈ df, r.survey = sur → r.Class = some c →
      r.individualCount.isSome = true) :
    (df.filter (fun r => decide (r.survey = sur ∧ r.Class = some c ∧
      r.individualCount.isSome = true))).length
    = (df.filter (fun r =>
        decide (r.survey = sur ∧ r.Class = some c))).length := by
  congr 1
  apply List.filter_congr
  intro r hr
  by_cases h1 : r.survey = sur
  · by_cases h2 : r.Class = some c
    · simp [h1, h2, hyp r hr h1 h2]
    · simp [h1, h2]
  · simp [h1]

/-- C8 amended: for each Class and regime, the occurrence-frequency charts
report the number of observation rows of that group whose Individual Count
is non-missing (pandas `.count()`); this equals the number of distinct
observation rows of the group whenever no Individual Count is missing there,
and it is never the sum of the group's Individual Count values. -/
theorem C8_occurrence_counts_nonnull_rows (df : List Row) :
    (∀ c n tag, (c, n, tag) ∈ compare_tides_observation_diff_class_barplot df →
      ∃ sur, ((tag = "Low" ∧ sur = "Low Tide") ∨ (tag = "High" ∧ sur = "High Tide")) ∧
        n = (df.filter (fun r => decide (r.survey = sur ∧ r.Class = some c ∧
          r.individualCount.isSome = true))).length ∧
        ((∀ r ∈ df, r.survey = sur → r.Class = some c →
            r.individualCount.isSome = true) →
          n = (df.filter (fun r =>
            decide (r.survey = sur ∧ r.Class = some c))).length)) ∧
    (∀ c n tag, (c, n, tag) ∈ compare_times_observation_diff_class_barplot df →
      ∃ sur, ((tag = "Day" ∧ sur = "Day") ∨ (tag = "Night" ∧ sur = "Night")) ∧
        n = (df.filter (fun r => decide (r.survey = sur ∧ r.Class = some c ∧
          r.individualCount.isSome = true))).length ∧
        ((∀ r ∈ df, r.survey = sur → r.Class = some c →
            r.individualCount.isSome = true) →
          n = (df.filter (fun r =>
            decide (r.survey = sur ∧ r.Class = some c))).length)) := by
  constructor
  · intro c n tag h
    rcases tagged_mem_split h with ⟨htag, hmem⟩ | ⟨htag, hmem⟩
    · rw [mem_sortByCountDesc] at hmem
      refine ⟨"Low Tide", Or.inl ⟨htag, rfl⟩,
        observationCounts_reports_nonnull df "Low Tide" c n hmem, ?_⟩
      intro hyp
      rw [observationCounts_reports_nonnull df "Low Tide" c n hmem]
      exact observationCounts_counts_rows_when_no_missing df "Low Tide" c hyp
    · refine ⟨"High Tide", Or.inr ⟨htag, rfl⟩,
        observationCounts_reports_nonnull df "High Tide" c n hmem, ?_⟩
      intro hyp
      rw [observationCounts_reports_nonnull df "High Tide" c n hmem]
      exact observationCounts_counts_rows_when_no_missing df "High Tide" c hyp
  · intro c n tag h
    rcases tagged_mem_split h with ⟨htag, hmem⟩ | ⟨htag, hmem⟩
    · rw [mem_sortByCountDesc] at hmem
      refine ⟨"Day", Or.inl ⟨htag, rfl⟩,
        observationCounts_reports_nonnull df "Day" c n hmem, ?_⟩
      intro hyp
      rw [observationCounts_reports_nonnull df "Day" c n hmem]
      exact observationCounts_counts_rows_when_no_missing df "Day" c hyp
    · refine ⟨"Night", Or.inr ⟨htag, rfl⟩,
        observationCounts_reports_nonnull df "Night" c n hmem, ?_⟩
      intro hyp
      rw [observationCounts_reports_nonnull df "Night" c n hmem]
      exact observationCounts_counts_rows_when_no_missing df "Night" c hyp

theorem C8_witness :
    ∃ sur, ((("Low" : String) = "Low" ∧ sur = "Low Tide") ∨
        (("Low" : String) = "High" ∧ sur = "High Tide")) ∧
      (1 : ℕ) = (exDf8.filter (fun r => decide (r.survey = sur ∧
        r.Class = some "A" ∧ r.individualCount.isSome = true))).length ∧
      ((∀ r ∈ exDf8, r.survey = sur → r.Class = some "A" →
          r.individualCount.isSome = true) →
        (1 : ℕ) = (exDf8.filter (fun r =>
          decide (r.survey = sur ∧ r.Class = some "A"))).length) :=
  (C8_occurrence_counts_nonnull_rows exDf8).1 "A" 1 "Low" (by decide)

end Invertebrates
